import Mathlib

/-!
# Collision-avoidance domain, its priors and the planner factory

A shallow embedding of

* `src/environment/State.hpp`
* `src/domains/collision-avoidance/CollisionAvoidance.hpp`
* `src/domains/collision-avoidance/CollisionAvoidancePriors.hpp`
* `src/planners/bayes-adaptive/BAPlanner.cpp`

C++ `int` values are embedded as `Int`, `size_t` values as `Nat`, `std::string` as `String`
and `std::vector<T>` as `List T`.  An operation whose C++ behaviour is undefined on some
arguments (a narrowing conversion of an unrepresentable value, a signed sum or product leaving
the `int` range, a read past the end of a vector) returns an `Option` and is `none` there.
A `throw` is an `Except.error` carrying the thrown literal.
-/

set_option autoImplicit false

/-! ## Machine-level helpers -/

namespace cpp

/-- Upper end (exclusive) of the 32-bit `int` range. -/
def INT_RANGE : Int := 2 ^ 31

/-- Number of values of the 64-bit `size_t`. -/
def SIZE_RANGE : Nat := 2 ^ 64

/-- Largest magnitude up to which every integer is a `double`. -/
def DOUBLE_EXACT : Nat := 2 ^ 53

/-- The function `std::to_string(int)`: decimal digits, with a leading minus sign for a
negative value. -/
def to_string (v : Int) : String :=
  if v < 0 then "-" ++ Nat.repr v.natAbs else Nat.repr v.toNat

/-- Subtraction of two `size_t` values (both below `2 ^ 64`): it wraps around below zero. -/
def size_t_sub (a b : Nat) : Nat :=
  if b ≤ a then a - b else a + SIZE_RANGE - b

/-- Conversion of an `int` to `size_t`: a non-negative value is kept, a negative one wraps. -/
def int_to_size_t (i : Int) : Nat :=
  if 0 ≤ i then i.toNat else (i + (SIZE_RANGE : Int)).toNat

/-- The function `std::pow(b, e)` on two `int` arguments.  The result is a `double`; it is
embedded as the integer it holds when the exponent is non-negative and the power is small
enough to be held exactly, and is `none` otherwise (a fractional or rounded result, left out
of the embedding). -/
def std_pow (b e : Int) : Option Int :=
  if 0 ≤ e ∧ (b ^ e.toNat).natAbs ≤ DOUBLE_EXACT then some (b ^ e.toNat) else none

/-- The conversion `static_cast<int>(d)` of an integer-valued `double`: undefined when `d` is
not an `int`. -/
def static_cast_int (d : Int) : Option Int :=
  if -INT_RANGE ≤ d ∧ d < INT_RANGE then some d else none

/-- Conversion of an integer-valued `double` to `size_t`: undefined outside `[0, 2 ^ 64)`. -/
def double_to_size_t (d : Int) : Option Nat :=
  if 0 ≤ d ∧ d < (SIZE_RANGE : Int) then some d.toNat else none

/-- Sum of two `int` values: undefined when it leaves the `int` range. -/
def int_add (a b : Int) : Option Int :=
  if -INT_RANGE ≤ a + b ∧ a + b < INT_RANGE then some (a + b) else none

/-- Product of two `int` values: undefined when it leaves the `int` range. -/
def int_mul (a b : Int) : Option Int :=
  if -INT_RANGE ≤ a * b ∧ a * b < INT_RANGE then some (a * b) else none

end cpp

/-! ## `CollisionAvoidanceState` -/

namespace domains

/-- The struct `CollisionAvoidanceState`: its four data members. -/
structure CollisionAvoidanceState where
  x_agent : Int
  y_agent : Int
  _index : Int
  obstacles_pos : List Int
  deriving DecidableEq, Repr

namespace CollisionAvoidanceState

/-- The constructor `CollisionAvoidanceState(x_agent_in, y_agent_in, obstacles_pos_in, index)`. -/
def new (x_agent_in y_agent_in : Int) (obstacles_pos_in : List Int) (index : Int) :
    CollisionAvoidanceState :=
  { x_agent := x_agent_in
    y_agent := y_agent_in
    _index := index
    obstacles_pos := obstacles_pos_in }

/-- The literal thrown by `index(int)`. -/
def index_error : String := "CollisionAvoidanceState::index(i) should not be called...?"

/-- The member `void index(int)`: it throws; the pair is the outcome and the state afterwards. -/
def index_set (s : CollisionAvoidanceState) (_i : Int) :
    Except String Unit × CollisionAvoidanceState :=
  (Except.error index_error, s)

/-- The member `int index() const`. -/
def index (s : CollisionAvoidanceState) : Int := s._index

/-- The `for` loop of `toString`: `remaining` is `obstacles_pos.size() - 1 - i`, the number of
iterations still to run, `i` the loop variable and `obsts` the string built so far.  Reading
`obstacles_pos[i]` past the end is undefined. -/
def toString_loop (obstacles_pos : List Int) : Nat → Nat → String → Option String
  | 0, _, obsts => some obsts
  | remaining + 1, i, obsts =>
    match obstacles_pos.get? i with
    | none => none
    | some o => toString_loop obstacles_pos remaining (i + 1) (obsts ++ (cpp.to_string o ++ ","))

/-- The member `std::string toString() const`.  `obstacles_pos.back()` on an empty vector is
undefined. -/
def toString (s : CollisionAvoidanceState) : Option String :=
  match toString_loop s.obstacles_pos (cpp.size_t_sub s.obstacles_pos.length 1) 0 "\x7b" with
  | none => none
  | some obsts =>
    match s.obstacles_pos.getLast? with
    | none => none
    | some last =>
      some ("(index:" ++ cpp.to_string s._index ++ " (" ++ cpp.to_string s.x_agent ++ ","
        ++ cpp.to_string s.y_agent ++ "), " ++ obsts ++ cpp.to_string last ++ "\x7d)")

end CollisionAvoidanceState

/-! ## `CollisionAvoidance` -/

namespace CollisionAvoidance

/-- The enumeration `move`. -/
inductive move where
  | MOVE_DOWN
  | STAY
  | MOVE_UP
  deriving DecidableEq, Repr

/-- The integer value of an enumerator of `move`: enumerators count up from zero. -/
def move.toInt : move → Int
  | .MOVE_DOWN => 0
  | .STAY => 1
  | .MOVE_UP => 2

def NUM_ACTIONS : Int := 3

/-- The constant `MOVE_PENALTY`, a `double` holding an integer. -/
def MOVE_PENALTY : Int := 1

/-- The constant `COLLIDE_PENALTY`, a `double` holding an integer. -/
def COLLIDE_PENALTY : Int := 1000

/-- Modelled from the spec: `utils::DiscreteSpace` (`utils/DiscreteSpace.hpp` is not among the
sources), "indexed space of fixed size": a space constructed from a size has that size. -/
structure DiscreteSpace where
  size : Int
  deriving DecidableEq, Repr

/-- The member `_actions{NUM_ACTIONS}`. -/
def _actions : DiscreteSpace := { size := NUM_ACTIONS }

/-- The member `_obstacles_space = std::vector<int>(_num_obstacles, _grid_height)`. -/
def _obstacles_space (_grid_height _num_obstacles : Int) : List Int :=
  List.replicate (cpp.int_to_size_t _num_obstacles) _grid_height

/-- The member `_observations`: a vector of
`static_cast<size_t>(static_cast<int>(std::pow(_grid_height, _num_obstacles)))` null
pointers. -/
def _observations (Observation : Type) (_grid_height _num_obstacles : Int) :
    Option (List (Option Observation)) := do
  let d ← cpp.std_pow _grid_height _num_obstacles
  let n ← cpp.static_cast_int d
  pure (List.replicate (cpp.int_to_size_t n) none)

/-- The member `_states`: `_grid_width` copies of `_grid_height` copies of a vector of
`std::pow(_grid_height, _num_obstacles)` null pointers. -/
def _states (_grid_width _grid_height _num_obstacles : Int) :
    Option (List (List (List (Option CollisionAvoidanceState)))) := do
  let d ← cpp.std_pow _grid_height _num_obstacles
  let n ← cpp.double_to_size_t d
  pure (List.replicate (cpp.int_to_size_t _grid_width)
    (List.replicate (cpp.int_to_size_t _grid_height) (List.replicate n none)))

/-- The size handed to the constructor of the member `_state_prior`:
`static_cast<size_t>(_grid_width * _grid_height *
static_cast<int>(std::pow(_grid_height, _num_obstacles)))`. -/
def _state_prior_size (_grid_width _grid_height _num_obstacles : Int) : Option Nat := do
  let d ← cpp.std_pow _grid_height _num_obstacles
  let n ← cpp.static_cast_int d
  let wh ← cpp.int_mul _grid_width _grid_height
  let total ← cpp.int_mul wh n
  pure (cpp.int_to_size_t total)

/-- Number of pointer slots of a three-level pool. -/
def slots {α : Type} (pool : List (List (List α))) : Nat :=
  ((pool.map fun plane => (plane.map List.length).sum)).sum

/-- The tuples a state stands for: agent x in `[0, width)`, agent y in `[0, height)` and one
y in `[0, height)` per obstacle. -/
abbrev StateTuple (width height obstacles : Nat) : Type :=
  Fin width × Fin height × (Fin obstacles → Fin height)

/-- Modelled from the spec: the cost of a move (`CollisionAvoidance.cpp` is not among the
sources), "diagonal moves cost 1, staying still while moving left costs 0". -/
def move_cost : move → Int
  | .MOVE_DOWN => MOVE_PENALTY
  | .STAY => 0
  | .MOVE_UP => MOVE_PENALTY

/-- Modelled from the spec: whether "any obstacle occupies the same (x=0, y) cell as the
agent" in a state. -/
def collision (new_s : CollisionAvoidanceState) : Bool :=
  new_s.x_agent == 0 && new_s.obstacles_pos.any fun o => o == new_s.y_agent

/-- Modelled from the spec: `CollisionAvoidance::reward`, defined in `CollisionAvoidance.cpp`,
which is not among the sources: "deterministic function = −(move cost of action) − 1000 if any
obstacle occupies the same (x=0, y) cell as the agent in `new_state`, else −(move cost)". -/
def reward (a : move) (new_s : CollisionAvoidanceState) : Int :=
  if collision new_s then -move_cost a - COLLIDE_PENALTY else -move_cost a

/-- Modelled from the spec: `CollisionAvoidance::keepInGrid`, defined in
`CollisionAvoidance.cpp`, which is not among the sources: "values below 0 clamp to 0, values
≥ height clamp to height−1". -/
def keepInGrid (_grid_height : Int) (y : Int) : Int :=
  if y < 0 then 0 else if _grid_height ≤ y then _grid_height - 1 else y

end CollisionAvoidance

end domains

/-! ## The priors -/

namespace priors

namespace CollisionAvoidanceTablePrior

def _NUM_ACTIONS : Int := 3

/-- The member `_obstacle_pos_ranges = std::vector<int>(_num_obstacles, _height)`. -/
def _obstacle_pos_ranges (_height _num_obstacles : Int) : List Int :=
  List.replicate (cpp.int_to_size_t _num_obstacles) _height

end CollisionAvoidanceTablePrior

namespace CollisionAvoidanceFactoredPrior

def _NUM_ACTIONS : Int := 3

def _AGENT_X_FEATURE : Int := 0

def _AGENT_Y_FEATURE : Int := 1

def _first_obstacle : Int := 2

/-- The member `_num_state_features = _first_obstacle + _num_obstacles`, a sum of two `int`
values. -/
def _num_state_features (_num_obstacles : Int) : Option Int :=
  cpp.int_add _first_obstacle _num_obstacles

end CollisionAvoidanceFactoredPrior

end priors

/-! ## The planner factory -/

namespace factory

/-- The configuration `configurations::Conf`: the member `planner` that the factory reads, and
the remaining members, which it only passes on. -/
structure Conf (Rest : Type) where
  planner : String
  rest : Rest

/-- The planners the factory can build; `BATSPlanner` and `RBAPOUCT` are built from the
configuration. -/
inductive Planner (Rest : Type) where
  | RandomPlanner
  | BATSPlanner (c : Conf Rest)
  | RBAPOUCT (c : Conf Rest)

/-- The function `makeBAPlanner`. -/
def makeBAPlanner {Rest : Type} (c : Conf Rest) : Except String (Planner Rest) :=
  if c.planner = "random" then Except.ok Planner.RandomPlanner
  else if c.planner = "ts" then Except.ok (Planner.BATSPlanner c)
  else if c.planner = "po-uct" then Except.ok (Planner.RBAPOUCT c)
  else Except.error "incorrect planner provided"

end factory

/-! ## Lemmas on the machine-level helpers -/

namespace cpp

theorem int_to_size_t_natCast (k : Nat) : int_to_size_t (k : Int) = k := by
  simp [int_to_size_t]

theorem std_pow_natCast (b e : Nat) (hfit : b ^ e ≤ 2 ^ 53) :
    std_pow (b : Int) (e : Int) = some ((b ^ e : Nat) : Int) := by
  have habs : ((b : Int) ^ e).natAbs = b ^ e := by
    rw [← Nat.cast_pow]; exact Int.natAbs_ofNat _
  have hfit2 : b ^ e ≤ DOUBLE_EXACT := hfit
  simp [std_pow, habs, hfit2]

theorem static_cast_int_natCast (k : Nat) (hk : k < 2 ^ 31) :
    static_cast_int (k : Int) = some (k : Int) := by
  have h1 : -INT_RANGE ≤ (k : Int) := by unfold INT_RANGE; omega
  have h2 : (k : Int) < INT_RANGE := by unfold INT_RANGE; omega
  simp [static_cast_int, h1, h2]

theorem double_to_size_t_natCast (k : Nat) (hk : k < 2 ^ 64) :
    double_to_size_t (k : Int) = some k := by
  have h2 : (k : Int) < ((SIZE_RANGE : Nat) : Int) := by unfold SIZE_RANGE; omega
  simp [double_to_size_t, h2]

theorem int_add_of_fits (a b : Int) (hlo : -2 ^ 31 ≤ a + b) (hhi : a + b < 2 ^ 31) :
    int_add a b = some (a + b) := by
  have h1 : -INT_RANGE ≤ a + b := hlo
  have h2 : a + b < INT_RANGE := hhi
  simp [int_add, h1, h2]

theorem int_mul_natCast (a b : Nat) (hfit : a * b < 2 ^ 31) :
    int_mul (a : Int) (b : Int) = some ((a * b : Nat) : Int) := by
  have h1 : -INT_RANGE ≤ (a : Int) * (b : Int) := by
    have : (0 : Int) ≤ (a : Int) * (b : Int) := by positivity
    unfold INT_RANGE; omega
  have h2 : (a : Int) * (b : Int) < INT_RANGE := by
    have : ((a * b : Nat) : Int) < 2 ^ 31 := by exact_mod_cast hfit
    unfold INT_RANGE; push_cast at this; exact this
  simp [int_mul, h1, h2]

end cpp

/-! ## Lemmas on `toString` -/

namespace domains

namespace CollisionAvoidanceState

theorem get?_append_cons_length (front : List Int) (o : Int) (tail : List Int) :
    (front ++ o :: tail).get? front.length = some o := by
  induction front with
  | nil => rfl
  | cons a l ih => simpa using ih

/-- The loop of `toString` run over a segment `mid` of the obstacle positions. -/
theorem toString_loop_segment (front : List Int) :
    ∀ (mid back : List Int) (obsts : String),
      toString_loop (front ++ (mid ++ back)) mid.length front.length obsts
        = some (mid.foldl (fun acc o => acc ++ (cpp.to_string o ++ ",")) obsts) := by
  intro mid
  induction mid generalizing front with
  | nil => intro back obsts; rfl
  | cons o rest ih =>
    intro back obsts
    have hget : (front ++ (o :: rest ++ back)).get? front.length = some o :=
      get?_append_cons_length front o (rest ++ back)
    have hshift : front ++ (o :: rest ++ back) = (front ++ [o]) ++ (rest ++ back) := by
      simp
    have hlen : front.length + 1 = (front ++ [o]).length := by simp
    simp only [List.length_cons, toString_loop, hget, List.foldl_cons]
    rw [hshift, hlen]
    exact ih (front ++ [o]) back _

theorem intercalate_go_append (front sep : String) :
    ∀ (parts : List String) (acc : String),
      String.intercalate.go (front ++ acc) sep parts
        = front ++ String.intercalate.go acc sep parts := by
  intro parts
  induction parts with
  | nil => intro acc; rfl
  | cons p rest ih =>
    intro acc
    simp only [String.intercalate.go]
    rw [String.append_assoc, String.append_assoc, ih, ← String.append_assoc acc]

/-- What the loop has built, followed by the last element, is the comma-separated list. -/
theorem foldl_comma_eq_intercalate (f : Int → String) :
    ∀ (init : List Int) (last : Int) (acc : String),
      init.foldl (fun acc o => acc ++ (f o ++ ",")) acc ++ f last
        = acc ++ String.intercalate "," ((init ++ [last]).map f) := by
  intro init
  induction init with
  | nil => intro last acc; rfl
  | cons o rest ih =>
    intro last acc
    rw [List.foldl_cons, ih last (acc ++ (f o ++ ",")), String.append_assoc]
    congr 1
    cases hrest : rest ++ [last] with
    | nil => simp at hrest
    | cons y t =>
      have hcons : (o :: rest) ++ [last] = o :: y :: t := by simp [hrest]
      rw [hcons]
      simp only [List.map_cons, String.intercalate, String.intercalate.go]
      rw [String.append_assoc (f o) "," (f y), intercalate_go_append, intercalate_go_append,
        String.append_assoc]

end CollisionAvoidanceState

end domains

/-! ## Theorems on `CollisionAvoidanceState` -/

namespace domains

namespace CollisionAvoidanceState

/-- C1: for every state `s` and every integer `i`, the re-indexing operation `s.index(i)`
raises (its outcome is the thrown literal, never a normal return) and the state afterwards is
`s` itself: `index()`, `x_agent`, `y_agent` and `obstacles_pos` are as before the call. -/
theorem index_set_raises_and_preserves (s : CollisionAvoidanceState) (i : Int) :
    (index_set s i).1 = Except.error index_error
      ∧ (∀ u : Unit, (index_set s i).1 ≠ Except.ok u)
      ∧ (index_set s i).2 = s
      ∧ (index_set s i).2.index = s.index
      ∧ (index_set s i).2.x_agent = s.x_agent
      ∧ (index_set s i).2.y_agent = s.y_agent
      ∧ (index_set s i).2.obstacles_pos = s.obstacles_pos := by
  refine ⟨rfl, ?_, rfl, rfl, rfl, rfl, rfl⟩
  intro u hu
  simp [index_set] at hu

/-- C2: the state built by `CollisionAvoidanceState(x, y, obs, idx)` is that tuple plus its
cached index: `index()` returns `idx`, `x_agent = x`, `y_agent = y`, and `obstacles_pos` is
`obs`, of the same length and with the same element at every position. -/
theorem new_is_the_tuple (x y : Int) (obs : List Int) (idx : Int) :
    (new x y obs idx).index = idx
      ∧ (new x y obs idx).x_agent = x
      ∧ (new x y obs idx).y_agent = y
      ∧ (new x y obs idx).obstacles_pos = obs
      ∧ (new x y obs idx).obstacles_pos.length = obs.length
      ∧ ∀ i : Nat, (new x y obs idx).obstacles_pos.get? i = obs.get? i :=
  ⟨rfl, rfl, rfl, rfl, rfl, fun _ => rfl⟩

/-- C9: for a state with a non-empty obstacle list `o_0 .. o_{k-1}`, `toString` stays within
the list (its result is defined) and returns `"(index:" + idx + " (" + x + "," + y + "), {"`
followed by the obstacle positions in stored order, in decimal, separated by single commas,
followed by `"})"`. -/
theorem toString_of_nonempty (s : CollisionAvoidanceState) (hk : 1 ≤ s.obstacles_pos.length) :
    toString s
      = some ("(index:" ++ cpp.to_string s.index ++ " (" ++ cpp.to_string s.x_agent ++ ","
          ++ cpp.to_string s.y_agent ++ "), \x7b"
          ++ String.intercalate "," (s.obstacles_pos.map cpp.to_string) ++ "\x7d)") := by
  obtain ⟨x, y, idx, obs⟩ := s
  have hne : obs ≠ [] := by
    intro h; simp [h] at hk
  obtain ⟨init, last, rfl⟩ : ∃ init last, obs = init ++ [last] :=
    ⟨obs.dropLast, obs.getLast hne, (List.dropLast_append_getLast hne).symm⟩
  have hsub : cpp.size_t_sub (init ++ [last]).length 1 = init.length := by
    simp [cpp.size_t_sub]
  have hloop := toString_loop_segment [] init [last] "\x7b"
  simp only [List.nil_append, List.length_nil] at hloop
  have hbrace : ("), " : String) ++ "\x7b" = "), \x7b" := by decide
  have hlast : (init ++ [last]).getLast? = some last := by simp
  simp only [toString, index, hsub, hloop, hlast]
  rw [String.append_assoc _ _ (cpp.to_string last), foldl_comma_eq_intercalate,
    ← String.append_assoc, String.append_assoc _ "), " "\x7b", hbrace]

/-- C9 at the state with index 5, agent at (2, 1) and obstacles at 1, -3, 0. -/
theorem toString_of_nonempty_witness :
    1 ≤ (new 2 1 [1, -3, 0] 5).obstacles_pos.length
      ∧ toString (new 2 1 [1, -3, 0] 5) = some "(index:5 (2,1), \x7b1,-3,0\x7d)" :=
  ⟨by decide, toString_of_nonempty (new 2 1 [1, -3, 0] 5) (by decide)⟩

end CollisionAvoidanceState

end domains

/-! ## Theorems on the sizes of the spaces of `CollisionAvoidance` -/

namespace domains

namespace CollisionAvoidance

theorem slots_replicate {α : Type} (a b c : Nat) (x : α) :
    slots (List.replicate a (List.replicate b (List.replicate c x))) = a * b * c := by
  simp [slots, List.map_replicate, List.sum_replicate, Nat.mul_assoc]

theorem pow_le_of_product_fits (w h n bound : Nat) (hw : 1 ≤ w) (hh : 1 ≤ h)
    (hfit : w * h * h ^ n < bound) : h ^ n < bound ∧ w * h < bound := by
  have hpos : 1 ≤ h ^ n := Nat.one_le_pow _ _ hh
  have hwh : 1 ≤ w * h := Nat.mul_pos hw hh
  constructor
  · calc h ^ n = 1 * h ^ n := (Nat.one_mul _).symm
      _ ≤ w * h * h ^ n := Nat.mul_le_mul_right _ hwh
      _ < bound := hfit
  · calc w * h = w * h * 1 := (Nat.mul_one _).symm
      _ ≤ w * h * h ^ n := Nat.mul_le_mul_left _ hpos
      _ < bound := hfit

theorem _states_natCast (grid_width : Int) (h n : Nat) (hpow : h ^ n < 2 ^ 31) :
    _states grid_width (h : Int) (n : Int)
      = some (List.replicate (cpp.int_to_size_t grid_width)
          (List.replicate h (List.replicate (h ^ n) none))) := by
  have hpow53 : h ^ n ≤ 2 ^ 53 := by omega
  have hpow64 : h ^ n < 2 ^ 64 := by omega
  unfold _states
  rw [cpp.std_pow_natCast h n hpow53, Option.bind_eq_bind, Option.some_bind,
    cpp.double_to_size_t_natCast _ hpow64, Option.bind_eq_bind, Option.some_bind,
    cpp.int_to_size_t_natCast]
  rfl

theorem _observations_natCast (Observation : Type) (h n : Nat) (hpow : h ^ n < 2 ^ 31) :
    _observations Observation (h : Int) (n : Int) = some (List.replicate (h ^ n) none) := by
  have hpow53 : h ^ n ≤ 2 ^ 53 := by omega
  unfold _observations
  rw [cpp.std_pow_natCast h n hpow53, Option.bind_eq_bind, Option.some_bind,
    cpp.static_cast_int_natCast _ hpow, Option.some_bind, cpp.int_to_size_t_natCast]
  rfl

theorem _state_prior_size_natCast (w h n : Nat) (hpow : h ^ n < 2 ^ 31) (hwh : w * h < 2 ^ 31)
    (hfit : w * h * h ^ n < 2 ^ 31) :
    _state_prior_size (w : Int) (h : Int) (n : Int) = some (w * h * h ^ n) := by
  have hpow53 : h ^ n ≤ 2 ^ 53 := by omega
  unfold _state_prior_size
  rw [cpp.std_pow_natCast h n hpow53, Option.bind_eq_bind, Option.some_bind,
    cpp.static_cast_int_natCast _ hpow, Option.some_bind,
    cpp.int_mul_natCast w h hwh, Option.some_bind,
    cpp.int_mul_natCast (w * h) (h ^ n) hfit, Option.some_bind,
    cpp.int_to_size_t_natCast]
  rfl

/-- C3: for `grid_width ≥ 1`, `grid_height ≥ 1` and `num_obstacles ≥ 0` whose product
`grid_width * grid_height * grid_height ^ num_obstacles` fits in an `int`, the pool `_states`
has `grid_width` outer entries, each with `grid_height` entries, each with
`grid_height ^ num_obstacles` entries, hence `grid_width * grid_height *
grid_height ^ num_obstacles` slots; that is the number of tuples (agent x, agent y, one y per
obstacle), and it is the size given to `_state_prior`. -/
theorem states_pool_size (grid_width grid_height num_obstacles : Int)
    (hw : 1 ≤ grid_width) (hh : 1 ≤ grid_height) (hn : 0 ≤ num_obstacles)
    (hfit : grid_width * grid_height * grid_height ^ num_obstacles.toNat < 2 ^ 31) :
    ∃ pool, _states grid_width grid_height num_obstacles = some pool
      ∧ pool.length = grid_width.toNat
      ∧ (∀ plane ∈ pool, plane.length = grid_height.toNat
          ∧ ∀ row ∈ plane, row.length = grid_height.toNat ^ num_obstacles.toNat)
      ∧ slots pool
          = grid_width.toNat * grid_height.toNat * grid_height.toNat ^ num_obstacles.toNat
      ∧ slots pool
          = Fintype.card (StateTuple grid_width.toNat grid_height.toNat num_obstacles.toNat)
      ∧ _state_prior_size grid_width grid_height num_obstacles = some (slots pool) := by
  lift grid_width to Nat using (by omega) with w
  lift grid_height to Nat using (by omega) with h
  lift num_obstacles to Nat using hn with n
  have hw1 : 1 ≤ w := by exact_mod_cast hw
  have hh1 : 1 ≤ h := by exact_mod_cast hh
  have hfitN : w * h * h ^ n < 2 ^ 31 := by
    simp only [Int.toNat_ofNat] at hfit
    exact_mod_cast hfit
  obtain ⟨hpow, hwh⟩ := pow_le_of_product_fits w h n (2 ^ 31) hw1 hh1 hfitN
  refine ⟨List.replicate w (List.replicate h (List.replicate (h ^ n) none)),
    ?_, ?_, ?_, ?_, ?_, ?_⟩
  · rw [_states_natCast w h n hpow, cpp.int_to_size_t_natCast]
  · simp
  · intro plane hplane
    rw [List.eq_of_mem_replicate hplane]
    refine ⟨by simp, ?_⟩
    intro row hrow
    rw [List.eq_of_mem_replicate hrow]
    simp
  · simp [slots_replicate]
  · simp [slots_replicate, StateTuple, Nat.mul_assoc]
  · rw [_state_prior_size_natCast w h n hpow hwh hfitN, slots_replicate]

/-- C3 on a grid of width 4 and height 3 with 2 obstacles: 4 * 3 * 9 = 108 slots. -/
theorem states_pool_size_witness :
    ∃ pool, _states 4 3 2 = some pool
      ∧ pool.length = (4 : Int).toNat
      ∧ (∀ plane ∈ pool, plane.length = (3 : Int).toNat
          ∧ ∀ row ∈ plane, row.length = (3 : Int).toNat ^ (2 : Int).toNat)
      ∧ slots pool = (4 : Int).toNat * (3 : Int).toNat * (3 : Int).toNat ^ (2 : Int).toNat
      ∧ slots pool = Fintype.card (StateTuple (4 : Int).toNat (3 : Int).toNat (2 : Int).toNat)
      ∧ _state_prior_size 4 3 2 = some (slots pool) :=
  states_pool_size 4 3 2 (by decide) (by decide) (by decide) (by decide)

/-- C4, as stated, fails on a grid of height 3 with 20 obstacles: `std::pow(3, 20)` is
3486784401, which `static_cast<int>` cannot represent, so `_observations` is not a vector of
`3 ^ 20` entries, while the conversion that sizes the innermost vectors of `_states` does
yield `3 ^ 20`. -/
theorem observations_size_counterexample :
    (¬ ∃ obs, _observations Unit 3 20 = some obs
        ∧ (obs.length : Int) = (_obstacles_space 3 20).prod)
      ∧ cpp.std_pow 3 20 = some 3486784401
      ∧ cpp.static_cast_int 3486784401 = none
      ∧ cpp.double_to_size_t 3486784401 = some 3486784401 := by
  refine ⟨?_, by decide, by decide, by decide⟩
  have hnone : _observations Unit 3 20 = none := by decide
  rintro ⟨obs, hobs, -⟩
  rw [hnone] at hobs
  exact Option.noConfusion hobs

/-- C4, amended: for `grid_height ≥ 1` and `num_obstacles ≥ 0` with
`grid_height ^ num_obstacles` fitting in an `int`, `_observations` has as many entries as the
product of the entries of `_obstacles_space` (`num_obstacles` entries, each `grid_height`),
that is `grid_height ^ num_obstacles`, which is the innermost dimension of `_states`; and
the flat prior's `_obstacle_pos_ranges` built from the same numbers is the list
`_obstacles_space`. -/
theorem observations_size (Observation : Type) (grid_height num_obstacles : Int)
    (hh : 1 ≤ grid_height) (hn : 0 ≤ num_obstacles)
    (hfit : grid_height ^ num_obstacles.toNat < 2 ^ 31) :
    ∃ obs, _observations Observation grid_height num_obstacles = some obs
      ∧ (_obstacles_space grid_height num_obstacles).length = num_obstacles.toNat
      ∧ (∀ e ∈ _obstacles_space grid_height num_obstacles, e = grid_height)
      ∧ (obs.length : Int) = (_obstacles_space grid_height num_obstacles).prod
      ∧ obs.length = grid_height.toNat ^ num_obstacles.toNat
      ∧ (∀ grid_width : Int, ∃ pool, _states grid_width grid_height num_obstacles = some pool
          ∧ ∀ plane ∈ pool, ∀ row ∈ plane, row.length = obs.length)
      ∧ priors.CollisionAvoidanceTablePrior._obstacle_pos_ranges grid_height num_obstacles
          = _obstacles_space grid_height num_obstacles := by
  lift grid_height to Nat using (by omega) with h
  lift num_obstacles to Nat using hn with n
  have hpow : h ^ n < 2 ^ 31 := by
    simp only [Int.toNat_ofNat] at hfit
    exact_mod_cast hfit
  refine ⟨List.replicate (h ^ n) none, _observations_natCast Observation h n hpow, ?_, ?_, ?_,
    ?_, ?_, rfl⟩
  · simp [_obstacles_space, cpp.int_to_size_t_natCast]
  · intro e he
    exact List.eq_of_mem_replicate he
  · simp [_obstacles_space, cpp.int_to_size_t_natCast]
  · simp
  · intro grid_width
    refine ⟨_, _states_natCast grid_width h n hpow, ?_⟩
    intro plane hplane row hrow
    rw [List.eq_of_mem_replicate hplane] at hrow
    rw [List.eq_of_mem_replicate hrow]
    simp

/-- C4, amended, on a grid of height 3 with 2 obstacles: 9 observations. -/
theorem observations_size_witness :
    ∃ obs, _observations Unit 3 2 = some obs
      ∧ (_obstacles_space 3 2).length = (2 : Int).toNat
      ∧ (∀ e ∈ _obstacles_space 3 2, e = 3)
      ∧ (obs.length : Int) = (_obstacles_space 3 2).prod
      ∧ obs.length = (3 : Int).toNat ^ (2 : Int).toNat
      ∧ (∀ grid_width : Int, ∃ pool, _states grid_width 3 2 = some pool
          ∧ ∀ plane ∈ pool, ∀ row ∈ plane, row.length = obs.length)
      ∧ priors.CollisionAvoidanceTablePrior._obstacle_pos_ranges 3 2 = _obstacles_space 3 2 :=
  observations_size Unit 3 2 (by decide) (by decide) (by decide)

end CollisionAvoidance

end domains

/-! ## Theorems on the actions, the reward and the clamping rule -/

namespace domains

namespace CollisionAvoidance

/-- C5: the enumeration `move` has exactly the three values `MOVE_DOWN`, `STAY`, `MOVE_UP`;
their indices are pairwise distinct and are exactly 0, 1, 2, each in `[0, NUM_ACTIONS)`;
`NUM_ACTIONS` is 3 and is the size of `_actions`; and `_NUM_ACTIONS` of the table prior and of
the factored prior both equal `NUM_ACTIONS`. -/
theorem action_space_has_three_moves :
    (∀ m : move, m = move.MOVE_DOWN ∨ m = move.STAY ∨ m = move.MOVE_UP)
      ∧ move.MOVE_DOWN ≠ move.STAY ∧ move.MOVE_DOWN ≠ move.MOVE_UP ∧ move.STAY ≠ move.MOVE_UP
      ∧ move.toInt move.MOVE_DOWN = 0 ∧ move.toInt move.STAY = 1 ∧ move.toInt move.MOVE_UP = 2
      ∧ Function.Injective move.toInt
      ∧ (∀ m : move, 0 ≤ m.toInt ∧ m.toInt < NUM_ACTIONS)
      ∧ (∀ i : Int, 0 ≤ i → i < NUM_ACTIONS → ∃ m : move, m.toInt = i)
      ∧ NUM_ACTIONS = 3
      ∧ _actions.size = NUM_ACTIONS
      ∧ priors.CollisionAvoidanceTablePrior._NUM_ACTIONS = NUM_ACTIONS
      ∧ priors.CollisionAvoidanceFactoredPrior._NUM_ACTIONS = NUM_ACTIONS := by
  refine ⟨?_, by decide, by decide, by decide, rfl, rfl, rfl, ?_, ?_, ?_, rfl, rfl, rfl, rfl⟩
  · intro m; cases m <;> simp
  · intro a b hab
    cases a <;> cases b <;> simp [move.toInt] at hab <;> rfl
  · intro m; cases m <;> simp [move.toInt, NUM_ACTIONS]
  · intro i h0 h3
    unfold NUM_ACTIONS at h3
    have hcases : i = 0 ∨ i = 1 ∨ i = 2 := by omega
    rcases hcases with rfl | rfl | rfl
    · exact ⟨move.MOVE_DOWN, rfl⟩
    · exact ⟨move.STAY, rfl⟩
    · exact ⟨move.MOVE_UP, rfl⟩

theorem collision_iff (new_s : CollisionAvoidanceState) :
    collision new_s = true
      ↔ (∃ o ∈ new_s.obstacles_pos, o = new_s.y_agent) ∧ new_s.x_agent = 0 := by
  simp [collision, and_comm]

theorem move_cost_bounds (a : move) : 0 ≤ move_cost a ∧ move_cost a ≤ 1 := by
  cases a <;> simp [move_cost, MOVE_PENALTY]

/-- C6: `reward(a, new_s)` is `-(move cost of a) - 1000` when some obstacle's y equals the
agent's y and the agent's x is 0 in `new_s`, and `-(move cost of a)` otherwise; the move cost
is `MOVE_PENALTY = 1` for `MOVE_DOWN` and `MOVE_UP` and 0 for `STAY`, and
`COLLIDE_PENALTY = 1000`; so the reward is at most -1000 in a collision state and at least -1
in every other state. -/
theorem reward_of_action_and_state (a : move) (new_s : CollisionAvoidanceState) :
    (((∃ o ∈ new_s.obstacles_pos, o = new_s.y_agent) ∧ new_s.x_agent = 0)
        → reward a new_s = -(move_cost a) - 1000 ∧ reward a new_s ≤ -1000)
      ∧ ((¬ ((∃ o ∈ new_s.obstacles_pos, o = new_s.y_agent) ∧ new_s.x_agent = 0))
        → reward a new_s = -(move_cost a) ∧ -1 ≤ reward a new_s)
      ∧ move_cost move.MOVE_DOWN = MOVE_PENALTY ∧ move_cost move.MOVE_UP = MOVE_PENALTY
      ∧ move_cost move.STAY = 0
      ∧ MOVE_PENALTY = 1 ∧ COLLIDE_PENALTY = 1000 := by
  have hb := move_cost_bounds a
  refine ⟨?_, ?_, rfl, rfl, rfl, rfl, rfl⟩
  · intro hit
    have hc : collision new_s = true := (collision_iff new_s).2 hit
    have hr : reward a new_s = -(move_cost a) - 1000 := by
      simp [reward, hc, COLLIDE_PENALTY]
    exact ⟨hr, by omega⟩
  · intro hmiss
    have hc : collision new_s = false := by
      cases hcol : collision new_s with
      | false => rfl
      | true => exact absurd ((collision_iff new_s).1 hcol) hmiss
    have hr : reward a new_s = -(move_cost a) := by
      simp [reward, hc]
    exact ⟨hr, by omega⟩

/-- C6 at a collision: moving up into the cell (0, 1) that holds the second obstacle. -/
theorem reward_of_action_and_state_witness :
    reward move.MOVE_UP (CollisionAvoidanceState.new 0 1 [2, 1] 7)
        = -(move_cost move.MOVE_UP) - 1000
      ∧ reward move.MOVE_UP (CollisionAvoidanceState.new 0 1 [2, 1] 7) ≤ -1000 :=
  (reward_of_action_and_state move.MOVE_UP (CollisionAvoidanceState.new 0 1 [2, 1] 7)).1
    ⟨⟨1, by decide, rfl⟩, rfl⟩

/-- C7: for a grid height `h ≥ 1` and every integer `y`, `keepInGrid(y)` is 0 when `y < 0`,
`h - 1` when `y ≥ h`, and `y` when `0 ≤ y < h`; its result lies in `[0, h)` and `keepInGrid`
is idempotent. -/
theorem keepInGrid_clamps (h y : Int) (hh : 1 ≤ h) :
    (y < 0 → keepInGrid h y = 0)
      ∧ (h ≤ y → keepInGrid h y = h - 1)
      ∧ (0 ≤ y → y < h → keepInGrid h y = y)
      ∧ (0 ≤ keepInGrid h y ∧ keepInGrid h y < h)
      ∧ keepInGrid h (keepInGrid h y) = keepInGrid h y := by
  unfold keepInGrid
  refine ⟨?_, ?_, ?_, ?_, ?_⟩
  · intro hy; simp [hy]
  · intro hy
    have : ¬ y < 0 := by omega
    simp [this, hy]
  · intro h0 h1
    have : ¬ y < 0 := by omega
    have : ¬ h ≤ y := by omega
    simp [*]
  · split_ifs <;> omega
  · split_ifs <;> omega

/-- C7 on a grid of height 3 at `y = 5`, which is clamped to 2. -/
theorem keepInGrid_clamps_witness :
    ((5 : Int) < 0 → keepInGrid 3 5 = 0)
      ∧ ((3 : Int) ≤ 5 → keepInGrid 3 5 = 3 - 1)
      ∧ ((0 : Int) ≤ 5 → (5 : Int) < 3 → keepInGrid 3 5 = 5)
      ∧ (0 ≤ keepInGrid 3 5 ∧ keepInGrid 3 5 < 3)
      ∧ keepInGrid 3 (keepInGrid 3 5) = keepInGrid 3 5 :=
  keepInGrid_clamps 3 5 (by decide)

end CollisionAvoidance

end domains

/-! ## Theorems on the feature ids of the factored prior -/

namespace priors

namespace CollisionAvoidanceFactoredPrior

/-- C10, as stated, fails at `num_obstacles = 2147483646`, a non-negative `int`: the sum
`_first_obstacle + _num_obstacles` would be 2147483648, which is not an `int`, so
`_num_state_features` is not `2 + n` there. -/
theorem state_feature_ids_counterexample :
    (0 : Int) ≤ 2147483646
      ∧ (2147483646 : Int) < cpp.INT_RANGE
      ∧ _num_state_features 2147483646 ≠ some (2 + 2147483646)
      ∧ _num_state_features 2147483646 = none := by
  refine ⟨by decide, by decide, ?_, by decide⟩
  have hnone : _num_state_features 2147483646 = none := by decide
  rw [hnone]
  exact fun h => Option.noConfusion h

/-- C10, amended: for every `num_obstacles = n` with `0 ≤ n ≤ 2 ^ 31 - 3` (so that `2 + n` is
an `int`), `_num_state_features = 2 + n`; the agent-x feature id is 0 and the agent-y feature
id is 1, distinct and both below `_first_obstacle = 2`; the obstacle feature ids
`_first_obstacle + i` for `i` in `[0, n)` are `int` sums, pairwise distinct, and exactly the
`n` ids in `[2, _num_state_features)`; so no obstacle feature id is an agent feature id and
every feature id is below `_num_state_features`. -/
theorem state_feature_ids (n : Int) (hn : 0 ≤ n) (hfit : n ≤ 2 ^ 31 - 3) :
    ∃ total, _num_state_features n = some total
      ∧ total = 2 + n
      ∧ _AGENT_X_FEATURE = 0 ∧ _AGENT_Y_FEATURE = 1 ∧ _first_obstacle = 2
      ∧ _AGENT_X_FEATURE ≠ _AGENT_Y_FEATURE
      ∧ _AGENT_X_FEATURE < _first_obstacle ∧ _AGENT_Y_FEATURE < _first_obstacle
      ∧ (∀ i : Int, 0 ≤ i → i < n →
          cpp.int_add _first_obstacle i = some (_first_obstacle + i))
      ∧ (∀ f : Int, (2 ≤ f ∧ f < total)
          ↔ ∃ i : Int, 0 ≤ i ∧ i < n ∧ f = _first_obstacle + i)
      ∧ (∀ i j : Int, _first_obstacle + i = _first_obstacle + j → i = j)
      ∧ ((List.range n.toNat).map (fun i : Nat => _first_obstacle + (i : Int))
          = (List.range' 2 n.toNat).map (fun f : Nat => (f : Int)))
      ∧ (∀ i : Int, 0 ≤ i → i < n →
          _first_obstacle + i ≠ _AGENT_X_FEATURE ∧ _first_obstacle + i ≠ _AGENT_Y_FEATURE
            ∧ _first_obstacle + i < total)
      ∧ _AGENT_X_FEATURE < total
      ∧ _AGENT_Y_FEATURE < total := by
  have htotal : _num_state_features n = some (2 + n) := by
    unfold _num_state_features _first_obstacle
    exact cpp.int_add_of_fits 2 n (by omega) (by omega)
  refine ⟨2 + n, htotal, rfl, ?_⟩
  unfold _first_obstacle _AGENT_X_FEATURE _AGENT_Y_FEATURE
  refine ⟨rfl, rfl, rfl, by decide, by decide, by decide, ?_, ?_, ?_, ?_, ?_, by omega,
    by omega⟩
  · intro i h0 hi
    exact cpp.int_add_of_fits 2 i (by omega) (by omega)
  · intro f
    constructor
    · rintro ⟨h2, hf⟩
      exact ⟨f - 2, by omega, by omega, by omega⟩
    · rintro ⟨i, h0, hi, rfl⟩
      exact ⟨by omega, by omega⟩
  · intro i j hij
    omega
  · rw [List.range'_eq_map_range, List.map_map]
    apply List.map_congr_left
    intro i _
    simp
  · intro i h0 hi
    exact ⟨by omega, by omega, by omega⟩

/-- C10, amended, with three obstacles: five state features, obstacle ids 2, 3, 4. -/
theorem state_feature_ids_witness :
    ∃ total, _num_state_features 3 = some total
      ∧ total = 2 + 3
      ∧ _AGENT_X_FEATURE = 0 ∧ _AGENT_Y_FEATURE = 1 ∧ _first_obstacle = 2
      ∧ _AGENT_X_FEATURE ≠ _AGENT_Y_FEATURE
      ∧ _AGENT_X_FEATURE < _first_obstacle ∧ _AGENT_Y_FEATURE < _first_obstacle
      ∧ (∀ i : Int, 0 ≤ i → i < 3 →
          cpp.int_add _first_obstacle i = some (_first_obstacle + i))
      ∧ (∀ f : Int, (2 ≤ f ∧ f < total)
          ↔ ∃ i : Int, 0 ≤ i ∧ i < 3 ∧ f = _first_obstacle + i)
      ∧ (∀ i j : Int, _first_obstacle + i = _first_obstacle + j → i = j)
      ∧ ((List.range (3 : Int).toNat).map (fun i : Nat => _first_obstacle + (i : Int))
          = (List.range' 2 (3 : Int).toNat).map (fun f : Nat => (f : Int)))
      ∧ (∀ i : Int, 0 ≤ i → i < 3 →
          _first_obstacle + i ≠ _AGENT_X_FEATURE ∧ _first_obstacle + i ≠ _AGENT_Y_FEATURE
            ∧ _first_obstacle + i < total)
      ∧ _AGENT_X_FEATURE < total
      ∧ _AGENT_Y_FEATURE < total :=
  state_feature_ids 3 (by decide) (by decide)

end CollisionAvoidanceFactoredPrior

end priors

/-! ## Theorem on the planner factory -/

namespace factory

/-- C8: `makeBAPlanner(c)` returns a planner if and only if `c.planner` is one of the strings
`"random"`, `"ts"`, `"po-uct"`: a `RandomPlanner`, a `BATSPlanner` built from `c`, an `RBAPOUCT`
built from `c`, respectively; for every other string, such as the empty string or a
differently-cased or padded spelling, it raises `"incorrect planner provided"` and returns no
planner. -/
theorem makeBAPlanner_by_name {Rest : Type} (c : Conf Rest) :
    ((∃ p, makeBAPlanner c = Except.ok p)
        ↔ (c.planner = "random" ∨ c.planner = "ts" ∨ c.planner = "po-uct"))
      ∧ (c.planner = "random" → makeBAPlanner c = Except.ok Planner.RandomPlanner)
      ∧ (c.planner = "ts" → makeBAPlanner c = Except.ok (Planner.BATSPlanner c))
      ∧ (c.planner = "po-uct" → makeBAPlanner c = Except.ok (Planner.RBAPOUCT c))
      ∧ (¬ (c.planner = "random" ∨ c.planner = "ts" ∨ c.planner = "po-uct")
          → makeBAPlanner c = Except.error "incorrect planner provided"
            ∧ ∀ p, makeBAPlanner c ≠ Except.ok p)
      ∧ (∀ rest : Rest, ∀ name ∈ ["", "Random", "TS", "PO-UCT", " ts", "ts ", "po_uct"],
          makeBAPlanner { planner := name, rest := rest }
            = Except.error "incorrect planner provided") := by
  have hrandom : c.planner = "random" → makeBAPlanner c = Except.ok Planner.RandomPlanner := by
    intro h; simp [makeBAPlanner, h]
  have hts : c.planner = "ts" → makeBAPlanner c = Except.ok (Planner.BATSPlanner c) := by
    intro h
    have h1 : c.planner ≠ "random" := by rw [h]; decide
    simp [makeBAPlanner, h, h1]
  have hpouct : c.planner = "po-uct" → makeBAPlanner c = Except.ok (Planner.RBAPOUCT c) := by
    intro h
    have h1 : c.planner ≠ "random" := by rw [h]; decide
    have h2 : c.planner ≠ "ts" := by rw [h]; decide
    simp [makeBAPlanner, h1, h2, h]
  have hother : ¬ (c.planner = "random" ∨ c.planner = "ts" ∨ c.planner = "po-uct")
      → makeBAPlanner c = Except.error "incorrect planner provided" := by
    intro h
    have h1 : c.planner ≠ "random" := fun e => h (Or.inl e)
    have h2 : c.planner ≠ "ts" := fun e => h (Or.inr (Or.inl e))
    have h3 : c.planner ≠ "po-uct" := fun e => h (Or.inr (Or.inr e))
    simp [makeBAPlanner, h1, h2, h3]
  refine ⟨⟨?_, ?_⟩, hrandom, hts, hpouct, ?_, ?_⟩
  · rintro ⟨p, hp⟩
    by_contra hnot
    rw [hother hnot] at hp
    exact Except.noConfusion hp
  · rintro (h | h | h)
    · exact ⟨_, hrandom h⟩
    · exact ⟨_, hts h⟩
    · exact ⟨_, hpouct h⟩
  · intro hnot
    refine ⟨hother hnot, ?_⟩
    intro p hp
    rw [hother hnot] at hp
    exact Except.noConfusion hp
  · intro rest name hname
    simp only [List.mem_cons, List.mem_singleton, List.not_mem_nil, or_false] at hname
    rcases hname with rfl | rfl | rfl | rfl | rfl | rfl | rfl <;>
      simp [makeBAPlanner]

/-- C8 at a configuration whose planner is `"ts"`: a `BATSPlanner` built from it. -/
theorem makeBAPlanner_by_name_witness :
    makeBAPlanner ({ planner := "ts", rest := () } : Conf Unit)
      = Except.ok (Planner.BATSPlanner { planner := "ts", rest := () }) :=
  (makeBAPlanner_by_name ({ planner := "ts", rest := () } : Conf Unit)).2.2.1 rfl

end factory
